import Mathlib

/-!
Verification development for the react-mini-card-project repository.

The repository has two source files:
* `src/App.jsx` — the Gallery container: owns the card list, the aggregate
  liked-set, the add/delete handlers, summary statistics and an error
  boundary wrapping the rendered content.
* `src/components/Card/Card.jsx` — the Card item: owns its boolean like
  state, seeds it from the key-value store, toggles it, persists it, and
  deletes with confirmation.

The development shallowly embeds the state and the handlers of both
components and proves the specified properties about them.  The key-value
store (`localStorage`) is modelled as a function from keys to optional
string values; the per-card in-memory state (`useState` of each mounted
Card) is carried next to the record the Gallery holds for that card; the
`Date.now()` time source used for fresh identifiers is modelled as a
counter that strictly increases between user events (distinct events see
distinct timestamps, the uniqueness-in-practice assumption the spec makes).
-/

/-! ### Key-value store (localStorage) -/

/-- The flat key-value string store (`localStorage`): a map from keys to
optionally present string values. -/
def Storage : Type := String → Option String

/-- Model of `localStorage.getItem`, returning `none` for an absent key
(JS `null`). -/
def Storage.getItem (st : Storage) (k : String) : Option String := st k

/-- Model of `localStorage.setItem`: create or overwrite the entry at `k`. -/
def Storage.setItem (st : Storage) (k v : String) : Storage :=
  fun q => if q = k then some v else st q

/-- Model of `localStorage.removeItem`: drop the entry at `k`. -/
def Storage.removeItem (st : Storage) (k : String) : Storage :=
  fun q => if q = k then none else st q

/-- The empty store: every key absent. -/
def emptyStorage : Storage := fun _ => none

/-- The persisted-flag key for a card identifier: the template literal
`card-` ++ cardId ++ `-liked` used by both source files. -/
def likedKey (id : String) : String := "card-" ++ id ++ "-liked"

/-- Well-formedness of a store for this application: every entry sitting
under a per-card liked key holds one of the two boolean serializations
`"true"` / `"false"` — the only values the Card component ever writes
(spec section 6: persisted state layout). -/
def WFStorage (st : Storage) : Prop :=
  ∀ id v, st.getItem (likedKey id) = some v → v = "true" ∨ v = "false"

/-! ### JSON values

`Card.jsx` reads back the persisted flag with `JSON.parse` and the rendered
state is the JS truthiness of the result.  We model the JSON literal forms
that can appear (the application itself only ever writes the boolean
serializations; the well-formedness hypotheses of the theorems restrict
attention to those). -/

/-- Result of `JSON.parse` on the literal forms relevant here. -/
inductive JsonValue where
  | jbool (b : Bool)
  | jnull
  | jnum (n : Int)
  | jerror
deriving DecidableEq, Repr

/-- Model of `JSON.parse` on literals: the keywords `true` / `false` /
`null` and integer numerals.  Any other document (strings, arrays, objects,
malformed input) is collapsed to `jerror`; no such value is ever written by
this application, and every theorem touching this case carries a
well-formedness hypothesis excluding it. -/
def jsonParseLit (s : String) : JsonValue :=
  if s = "true" then JsonValue.jbool true
  else if s = "false" then JsonValue.jbool false
  else if s = "null" then JsonValue.jnull
  else
    match s.toInt? with
    | some n => JsonValue.jnum n
    | none => JsonValue.jerror

/-- JS truthiness of a parsed JSON value. -/
def jsTruthy : JsonValue → Bool
  | JsonValue.jbool b => b
  | JsonValue.jnull => false
  | JsonValue.jnum n => n != 0
  | JsonValue.jerror => false

/-- Model of `JSON.stringify` on a boolean. -/
def jsonStringifyBool (b : Bool) : String := if b then "true" else "false"

/-- Model of the JS `String.prototype.trim`: strip whitespace from both
ends (implemented on the character list so that it evaluates by
reduction). -/
def jsTrim (s : String) : String :=
  ⟨((s.data.dropWhile Char.isWhitespace).reverse.dropWhile Char.isWhitespace).reverse⟩

/-- Take the first `n` characters of a string, the effect of the
`maxLength` attribute of the add-form input (implemented on the character
list so that it evaluates by reduction). -/
def strTake (s : String) (n : Nat) : String := ⟨s.data.take n⟩

/-! ### The Card component (src/components/Card/Card.jsx) -/

namespace Card

/-- The `useState` initializer of `Card.jsx` (lines 21 to 27): when `cardId`
is truthy, read the persisted flag for this card; if present, `JSON.parse`
it (the rendered state being its truthiness); otherwise fall back to the
supplied `initialLiked` default.  A `none` argument models a null/absent
`cardId` prop; an empty string is likewise falsy in JS. -/
def initLiked (st : Storage) (cardId : Option String) (initialLiked : Bool) : Bool :=
  match cardId with
  | some id =>
      if id = "" then initialLiked
      else
        match st.getItem (likedKey id) with
        | some savedState => jsTruthy (jsonParseLit savedState)
        | none => initialLiked
  | none => initialLiked

/-- Outcome of one `toggleLike` invocation: the new in-memory state, the
store after the conditional write, and the `onLikeChange` invocation (the
pair of arguments it was called with) when that callback was supplied. -/
structure ToggleResult where
  isLiked : Bool
  storage : Storage
  likeChangeCall : Option (Option String × Bool)

/-- The `toggleLike` handler of `Card.jsx` (lines 30 to 49): flip the
in-memory state, persist the new value under the card key when `cardId` is
truthy, and invoke `onLikeChange cardId newValue` when that callback is
supplied.  (The `console.log` diagnostic is observability only and is not
modelled.) -/
def toggleLike (st : Storage) (cardId : Option String) (hasOnLikeChange : Bool)
    (prevLiked : Bool) : ToggleResult :=
  let newLikedState := !prevLiked
  { isLiked := newLikedState
    storage :=
      match cardId with
      | some id =>
          if id = "" then st
          else st.setItem (likedKey id) (jsonStringifyBool newLikedState)
      | none => st
    likeChangeCall :=
      if hasOnLikeChange then some (cardId, newLikedState) else none }

/-- Outcome of one `handleDelete` invocation: the store after the
conditional removal, and the `onDelete` invocation (the argument it was
called with) when that callback was supplied and the prompt was confirmed. -/
structure DeleteResult where
  storage : Storage
  deleteCall : Option (Option String)

/-- The `handleDelete` handler of `Card.jsx` (lines 52 to 66): a blocking
`window.confirm` prompt; when confirmed, remove the persisted entry (if
`cardId` is truthy) and invoke `onDelete cardId` (if supplied); when not
confirmed, do nothing. -/
def handleDelete (st : Storage) (cardId : Option String) (hasOnDelete : Bool)
    (confirmed : Bool) : DeleteResult :=
  if confirmed then
    { storage :=
        match cardId with
        | some id => if id = "" then st else st.removeItem (likedKey id)
        | none => st
      deleteCall := if hasOnDelete then some cardId else none }
  else
    { storage := st, deleteCall := none }

/-- The status label a Card renders (line 96 of `Card.jsx`):
`isLiked ? 'Liked' : 'Not Liked'`. -/
def statusLabel (isLiked : Bool) : String := if isLiked then "Liked" else "Not Liked"

end Card

/-! ### The Gallery container (src/App.jsx) -/

/-- A card record as held by the Gallery list (`App.jsx`): identifier,
title and the default seed flag. -/
structure CardRec where
  id : String
  title : String
  initialLiked : Bool
deriving DecidableEq, Repr

/-- The fixed seed list `initialCards` of `App.jsx` (lines 39 to 60). -/
def initialCards : List CardRec :=
  [ { id := "react-dev", title := "React Development", initialLiked := true },
    { id := "js-fundamentals", title := "JavaScript Fundamentals", initialLiked := false },
    { id := "css-animations", title := "CSS Animations", initialLiked := true },
    { id := "web-design", title := "Web Design Principles", initialLiked := false } ]

/-- The identifier generated for a freshly added card:
the template literal `card-` ++ Date.now() (`App.jsx` line 107), with the
timestamp rendered in decimal. -/
def genId (t : Nat) : String := "card-" ++ Nat.repr t

/-- A card of the Gallery list together with the in-memory like state of
the mounted Card component instance rendered for it. -/
structure CardInstance where
  card : CardRec
  isLiked : Bool
deriving DecidableEq, Repr

namespace App

/-- JS `Set.add` on a set represented as its insertion-ordered list of
distinct elements: append the element when it is not yet present. -/
def setAdd (l : List String) (x : String) : List String :=
  if x ∈ l then l else l ++ [x]

/-- JS `Set.delete` on the list representation. -/
def setDelete (l : List String) (x : String) : List String := l.erase x

/-- The per-card condition of the liked-set resynchronization effect of
`App.jsx` (line 73): `savedState === 'true' || (savedState === null &&
card.initialLiked)`. -/
def galleryLikedCond (st : Storage) (c : CardRec) : Bool :=
  let savedState := st.getItem (likedKey c.id)
  (savedState == some "true") || ((savedState == none) && c.initialLiked)

/-- The liked-set resynchronization effect of `App.jsx` (lines 69 to 78):
build a fresh set by walking the current card list and adding every card
whose persisted flag reads `"true"`, or which has no persisted flag and a
true default seed. -/
def resyncLiked (st : Storage) (cards : List CardRec) : List String :=
  cards.foldl (fun acc c => if galleryLikedCond st c then setAdd acc c.id else acc) []

/-- The `handleLikeChange` callback of `App.jsx` (lines 81 to 91): upsert
the reporting card id into or out of the aggregate liked-set per the new
boolean. -/
def handleLikeChange (liked : List String) (cardId : String) (isLiked : Bool) :
    List String :=
  if isLiked then setAdd liked cardId else setDelete liked cardId

/-- A user-level event of the application.  `toggle` and `deleteCard` carry
the id of the card whose control was activated (keyboard activation runs
the same handlers); `deleteCard` carries the answer the user gives to the
confirmation prompt; `typeTitle` is input into the add form text field;
`submitAdd` submits the form, `openAddForm` and `cancelAdd` open and
dismiss it (Escape behaves as cancel). -/
inductive Op where
  | toggle (id : String)
  | deleteCard (id : String) (confirmed : Bool)
  | typeTitle (t : String)
  | submitAdd
  | openAddForm
  | cancelAdd
deriving DecidableEq, Repr

/-- The full state of the running application: the Gallery list with the
in-memory state of each mounted Card, the aggregate liked-set, the pending
add-form fields, the key-value store, and the current `Date.now()` reading. -/
structure AppState where
  cards : List CardInstance
  likedCards : List String
  newCardTitle : String
  isAddingCard : Bool
  storage : Storage
  clock : Nat

/-- The `likeCount` statistic of `App.jsx` (line 127): the size of the
aggregate liked-set. -/
def likeCount (s : AppState) : Nat := s.likedCards.length

/-- The `totalCards` statistic of `App.jsx` (line 128). -/
def totalCards (s : AppState) : Nat := s.cards.length

/-- One user event processed to quiescence.  Each branch composes the Card
handler with the Gallery callback it invokes, followed by the
resynchronization effect whenever the card list changed (its dependency
array is `[cards]`).  The clock strictly increases between events. -/
def step (s : AppState) : Op → AppState
  | Op.toggle id =>
      match s.cards.find? (fun m => m.card.id == id) with
      | none => { s with clock := s.clock + 1 }
      | some c =>
          -- Card.toggleLike runs with this card's props (both callbacks supplied).
          let r := Card.toggleLike s.storage (some c.card.id) true c.isLiked
          -- the onLikeChange invocation lands in App.handleLikeChange
          let liked' :=
            match r.likeChangeCall with
            | some (some cid, v) => handleLikeChange s.likedCards cid v
            | _ => s.likedCards
          { s with
            cards := s.cards.map (fun m =>
              if m.card.id == id then { m with isLiked := r.isLiked } else m)
            likedCards := liked'
            storage := r.storage
            clock := s.clock + 1 }
  | Op.deleteCard id confirmed =>
      match s.cards.find? (fun m => m.card.id == id) with
      | none => { s with clock := s.clock + 1 }
      | some c =>
          let r := Card.handleDelete s.storage (some c.card.id) true confirmed
          match r.deleteCall with
          | some _ =>
              -- App.handleCardDelete (lines 94 to 101) filters the list and
              -- drops the id from the liked-set; the card list changed, so
              -- the resynchronization effect then rebuilds the liked-set.
              let cards' := s.cards.filter (fun m => m.card.id != id)
              { s with
                cards := cards'
                likedCards := resyncLiked r.storage (cards'.map CardInstance.card)
                storage := r.storage
                clock := s.clock + 1 }
          | none => { s with storage := r.storage, clock := s.clock + 1 }
  | Op.typeTitle t =>
      -- the input field carries maxLength 50
      { s with newCardTitle := strTake t 50, clock := s.clock + 1 }
  | Op.submitAdd =>
      -- handleAddCard (lines 104 to 118)
      if jsTrim s.newCardTitle ≠ "" then
        let newRec : CardRec :=
          { id := genId s.clock, title := jsTrim s.newCardTitle, initialLiked := false }
        -- the new Card mounts and seeds its in-memory state
        let cards' := s.cards ++
          [{ card := newRec, isLiked := Card.initLiked s.storage (some newRec.id) newRec.initialLiked }]
        { s with
          cards := cards'
          likedCards := resyncLiked s.storage (cards'.map CardInstance.card)
          newCardTitle := ""
          isAddingCard := false
          clock := s.clock + 1 }
      else
        { s with clock := s.clock + 1 }
  | Op.openAddForm => { s with isAddingCard := true, clock := s.clock + 1 }
  | Op.cancelAdd => { s with isAddingCard := false, newCardTitle := "", clock := s.clock + 1 }

/-- The state right after the initial load: the seed list is mounted, each
Card seeds its in-memory state from the store, and the resynchronization
effect has populated the aggregate liked-set. -/
def initState (st : Storage) (clock : Nat) : AppState :=
  let mounted := initialCards.map (fun r =>
    { card := r, isLiked := Card.initLiked st (some r.id) r.initialLiked })
  { cards := mounted
    likedCards := resyncLiked st (mounted.map CardInstance.card)
    newCardTitle := ""
    isAddingCard := false
    storage := st
    clock := clock }

/-- Run a sequence of user events from the initial load. -/
def run (st : Storage) (clock : Nat) (ops : List Op) : AppState :=
  ops.foldl step (initState st clock)

end App

/-! ### The rendered structure and the error boundary (src/App.jsx) -/

/-- The top-level regions of the rendered output of `App.jsx`. -/
inductive Region where
  | header
  | stats
  | addButton
  | addForm
  | cardsGrid
  | emptyState
  | footer
  | errorFallback
deriving DecidableEq, Repr

/-- The children the `ErrorBoundary` wraps in `App.jsx` (lines 141 to 243):
the header with the statistics and the add-card section, the main content
(card grid, or the empty-state message when no cards remain), and the
footer. -/
def appContent (s : App.AppState) : List Region :=
  [Region.header, Region.stats] ++
    (if s.isAddingCard then [Region.addForm] else [Region.addButton]) ++
    (if s.cards.isEmpty then [Region.emptyState] else [Region.cardsGrid]) ++
    [Region.footer]

/-- The state of the `ErrorBoundary` class component (`App.jsx` lines 6 to
35). -/
structure EBState where
  hasError : Bool
  error : Option String
deriving DecidableEq, Repr

namespace EB

/-- The `getDerivedStateFromError` handler (lines 12 to 14): any rendering
failure below the boundary flips it into the error state. -/
def getDerivedStateFromError (e : String) : EBState :=
  { hasError := true, error := some e }

/-- The `render` method (lines 20 to 34): in the error state the whole
subtree is replaced by the static fallback panel; otherwise the children
render normally. -/
def render (eb : EBState) (children : List Region) : List Region :=
  if eb.hasError then [Region.errorFallback] else children

/-- The `Try Again` button (line 26): clear the error condition and nothing
else. -/
def reset (_eb : EBState) : EBState := { hasError := false, error := none }

end EB

/-- The full rendered output of `App` for a given boundary state and
application state. -/
def appRender (eb : EBState) (s : App.AppState) : List Region :=
  EB.render eb (appContent s)

/-! ### String and numeral lemmas

`App.jsx` generates identifiers with the template literal `card-` ++
Date.now(), i.e. the decimal rendering `Nat.repr` of the timestamp; the
persisted-flag keys are built by string concatenation.  The lemmas here
show these constructions are injective, so distinct timestamps give
distinct identifiers and distinct identifiers give distinct storage keys. -/

theorem likedKey_inj {a b : String} (h : likedKey a = likedKey b) : a = b := by
  have h2 := congrArg String.data h
  simp only [likedKey, String.data_append] at h2
  exact String.ext (List.append_cancel_left (List.append_cancel_right h2))

/-- Decimal digit rendering of a natural number, most significant digit
first: the reference function the fuelled core implementation of
`Nat.repr` computes. -/
def decDigits (n : Nat) : List Char :=
  if _h : n < 10 then [Nat.digitChar n]
  else decDigits (n / 10) ++ [Nat.digitChar (n % 10)]
decreasing_by exact Nat.div_lt_self (by omega) (by omega)

theorem decDigits_ne_nil (n : Nat) : decDigits n ≠ [] := by
  rw [decDigits]
  split <;> simp

theorem toDigitsCore_eq_decDigits :
    ∀ (n fuel : Nat) (ds : List Char), n < fuel →
      Nat.toDigitsCore 10 fuel n ds = decDigits n ++ ds := by
  intro n
  induction n using Nat.strong_induction_on with
  | _ n ih =>
    intro fuel ds hfuel
    match fuel, hfuel with
    | fuel + 1, _ =>
      rw [Nat.toDigitsCore]
      by_cases h10 : n < 10
      · have hdiv : n / 10 = 0 := Nat.div_eq_of_lt h10
        rw [decDigits]
        simp [hdiv, h10, Nat.mod_eq_of_lt h10]
      · have hpos : 0 < n := by omega
        have hlt : n / 10 < n := Nat.div_lt_self hpos (by omega)
        have hdiv : ¬ n / 10 = 0 := by
          have h1 : 1 ≤ n / 10 := (Nat.le_div_iff_mul_le (by omega)).mpr (by omega)
          omega
        simp only [hdiv, if_false]
        rw [ih (n / 10) hlt fuel (Nat.digitChar (n % 10) :: ds) (by omega)]
        rw [show decDigits n = decDigits (n / 10) ++ [Nat.digitChar (n % 10)] from by
          rw [decDigits]; simp [h10]]
        simp [List.append_assoc]

theorem toDigits_eq_decDigits (n : Nat) : Nat.toDigits 10 n = decDigits n := by
  rw [Nat.toDigits, toDigitsCore_eq_decDigits n (n + 1) [] (by omega)]
  simp

theorem digitChar_inj_lt :
    ∀ k, k < 10 → ∀ j, j < 10 → Nat.digitChar k = Nat.digitChar j → k = j := by
  decide

theorem decDigits_inj : ∀ m n : Nat, decDigits m = decDigits n → m = n := by
  intro m
  induction m using Nat.strong_induction_on with
  | _ m ih =>
    intro n h
    rw [decDigits] at h
    rw [show decDigits n =
          if _h : n < 10 then [Nat.digitChar n]
          else decDigits (n / 10) ++ [Nat.digitChar (n % 10)] from by rw [decDigits]] at h
    by_cases hm : m < 10 <;> by_cases hn : n < 10
    · simp only [hm, hn, dif_pos] at h
      exact digitChar_inj_lt m hm n hn (List.head_eq_of_cons_eq h)
    · simp only [hm, hn, dif_pos, dif_neg, not_false_iff] at h
      have hlen := congrArg List.length h
      simp at hlen
      exact absurd hlen (decDigits_ne_nil (n / 10))
    · simp only [hm, hn, dif_pos, dif_neg, not_false_iff] at h
      have hlen := congrArg List.length h
      simp at hlen
      exact absurd hlen (decDigits_ne_nil (m / 10))
    · simp only [hm, hn, dif_neg, not_false_iff] at h
      have hlen := congrArg List.length h
      simp only [List.length_append, List.length_cons, List.length_nil] at hlen
      obtain ⟨hinit, hlast⟩ := List.append_inj h (by omega)
      have hdiv := ih (m / 10) (Nat.div_lt_self (by omega) (by omega)) (n / 10) hinit
      have hmod : m % 10 = n % 10 :=
        digitChar_inj_lt (m % 10) (Nat.mod_lt m (by omega)) (n % 10) (Nat.mod_lt n (by omega))
          (List.head_eq_of_cons_eq hlast)
      omega

theorem natRepr_inj {m n : Nat} (h : Nat.repr m = Nat.repr n) : m = n := by
  have h2 : Nat.toDigits 10 m = Nat.toDigits 10 n := congrArg String.data h
  rw [toDigits_eq_decDigits, toDigits_eq_decDigits] at h2
  exact decDigits_inj m n h2

theorem genId_inj {m n : Nat} (h : genId m = genId n) : m = n := by
  have h2 := congrArg String.data h
  simp only [genId, String.data_append] at h2
  exact natRepr_inj (String.ext (List.append_cancel_left h2))

theorem genId_data_take_two (n : Nat) : (genId n).data.take 2 = ['c', 'a'] := by
  show ("card-" ++ Nat.repr n).data.take 2 = ['c', 'a']
  rw [String.data_append]
  rfl

theorem genId_ne_empty (n : Nat) : genId n ≠ "" := by
  intro h
  have h2 := genId_data_take_two n
  rw [h] at h2
  exact absurd h2 (by decide)

theorem seed_ne_genId :
    ∀ n : Nat, "react-dev" ≠ genId n ∧ "js-fundamentals" ≠ genId n ∧
      "css-animations" ≠ genId n ∧ "web-design" ≠ genId n := by
  intro n
  refine ⟨?_, ?_, ?_, ?_⟩ <;>
    · intro h
      have h2 := genId_data_take_two n
      rw [← h] at h2
      exact absurd h2 (by decide)

/-! ### Store access lemmas -/

theorem getItem_setItem_self (st : Storage) (k v : String) :
    (st.setItem k v).getItem k = some v := by
  simp [Storage.getItem, Storage.setItem]

theorem getItem_setItem_ne (st : Storage) {q k : String} (v : String) (h : q ≠ k) :
    (st.setItem k v).getItem q = st.getItem q := by
  simp [Storage.getItem, Storage.setItem, h]

theorem getItem_removeItem_self (st : Storage) (k : String) :
    (st.removeItem k).getItem k = none := by
  simp [Storage.getItem, Storage.removeItem]

theorem getItem_removeItem_ne (st : Storage) {q k : String} (h : q ≠ k) :
    (st.removeItem k).getItem q = st.getItem q := by
  simp [Storage.getItem, Storage.removeItem, h]

theorem wf_emptyStorage : WFStorage emptyStorage := by
  intro id v h
  exact absurd h (by simp [Storage.getItem, emptyStorage])

theorem wf_setItem_stringify {st : Storage} (hwf : WFStorage st) (k : String) (b : Bool) :
    WFStorage (st.setItem k (jsonStringifyBool b)) := by
  intro id v h
  by_cases hk : likedKey id = k
  · rw [hk, getItem_setItem_self] at h
    cases b <;> simp_all [jsonStringifyBool]
  · rw [getItem_setItem_ne st _ hk] at h
    exact hwf id v h

theorem wf_removeItem {st : Storage} (hwf : WFStorage st) (k : String) :
    WFStorage (st.removeItem k) := by
  intro id v h
  by_cases hk : likedKey id = k
  · rw [hk, getItem_removeItem_self] at h
    exact absurd h (by simp)
  · rw [getItem_removeItem_ne st hk] at h
    exact hwf id v h

/-! ### Boolean equality reductions for Option String -/

@[simp] theorem optStr_beq_some_some {a b : String} :
    ((some a : Option String) == some b) = (a == b) := rfl

@[simp] theorem optStr_beq_some_none {a : String} :
    ((some a : Option String) == none) = false := rfl

@[simp] theorem optStr_beq_none_some {b : String} :
    ((none : Option String) == some b) = false := rfl

@[simp] theorem optStr_beq_none_none : ((none : Option String) == none) = true := rfl

/-! ### Gallery liked-set lemmas -/

namespace App

theorem mem_setAdd {l : List String} {x y : String} :
    y ∈ setAdd l x ↔ y ∈ l ∨ y = x := by
  unfold setAdd
  split
  · rename_i h
    constructor
    · exact Or.inl
    · rintro (hy | rfl)
      · exact hy
      · exact h
  · simp

theorem nodup_setAdd {l : List String} (x : String) (h : l.Nodup) : (setAdd l x).Nodup := by
  unfold setAdd
  split
  · exact h
  · rename_i hx
    simp [List.nodup_append, h, hx]

theorem mem_setDelete {l : List String} {x y : String} (hl : l.Nodup) :
    y ∈ setDelete l x ↔ y ≠ x ∧ y ∈ l := by
  unfold setDelete
  exact hl.mem_erase_iff

theorem nodup_setDelete {l : List String} (x : String) (h : l.Nodup) :
    (setDelete l x).Nodup :=
  h.erase x

theorem mem_resyncFold (st : Storage) :
    ∀ (cards : List CardRec) (acc : List String) (y : String),
      (y ∈ cards.foldl
          (fun acc c => if galleryLikedCond st c then setAdd acc c.id else acc) acc ↔
        y ∈ acc ∨ ∃ c ∈ cards, c.id = y ∧ galleryLikedCond st c = true) := by
  intro cards
  induction cards with
  | nil => simp
  | cons c cs ih =>
    intro acc y
    simp only [List.foldl_cons]
    rw [ih]
    by_cases hc : galleryLikedCond st c
    · simp only [hc, if_pos, mem_setAdd, List.mem_cons]
      constructor
      · rintro ((hy | rfl) | ⟨d, hd, rfl, hcond⟩)
        · exact Or.inl hy
        · exact Or.inr ⟨c, Or.inl rfl, rfl, hc⟩
        · exact Or.inr ⟨d, Or.inr hd, rfl, hcond⟩
      · rintro (hy | ⟨d, (rfl | hd), rfl, hcond⟩)
        · exact Or.inl (Or.inl hy)
        · exact Or.inl (Or.inr rfl)
        · exact Or.inr ⟨d, hd, rfl, hcond⟩
    · simp only [hc, if_neg, Bool.not_eq_true, List.mem_cons]
      constructor
      · rintro (hy | ⟨d, hd, rfl, hcond⟩)
        · exact Or.inl hy
        · exact Or.inr ⟨d, Or.inr hd, rfl, hcond⟩
      · rintro (hy | ⟨d, (rfl | hd), rfl, hcond⟩)
        · exact Or.inl hy
        · exact absurd hcond (by simp [hc])
        · exact Or.inr ⟨d, hd, rfl, hcond⟩
  
theorem nodup_resyncFold (st : Storage) :
    ∀ (cards : List CardRec) (acc : List String), acc.Nodup →
      (cards.foldl
        (fun acc c => if galleryLikedCond st c then setAdd acc c.id else acc) acc).Nodup := by
  intro cards
  induction cards with
  | nil => intro acc h; simpa using h
  | cons c cs ih =>
    intro acc h
    simp only [List.foldl_cons]
    by_cases hc : galleryLikedCond st c
    · simp only [hc, if_pos]
      exact ih _ (nodup_setAdd _ h)
    · simp only [hc, if_neg]
      exact ih _ h

theorem mem_resyncLiked {st : Storage} {cards : List CardRec} {y : String} :
    y ∈ resyncLiked st cards ↔
      ∃ c ∈ cards, c.id = y ∧ galleryLikedCond st c = true := by
  rw [resyncLiked, mem_resyncFold]
  simp

theorem nodup_resyncLiked (st : Storage) (cards : List CardRec) :
    (resyncLiked st cards).Nodup :=
  nodup_resyncFold st cards [] List.nodup_nil

/-- Membership in the resynchronized liked-set coincides with the in-memory
state of the mounted cards as soon as each mounted state agrees with the
per-card resynchronization condition. -/
theorem mem_resyncLiked_of_sync {st : Storage} {cards : List CardInstance}
    (hsync : ∀ m ∈ cards, m.isLiked = galleryLikedCond st m.card) (y : String) :
    y ∈ resyncLiked st (cards.map CardInstance.card) ↔
      ∃ m ∈ cards, m.card.id = y ∧ m.isLiked = true := by
  rw [mem_resyncLiked]
  constructor
  · rintro ⟨c, hc, rfl, hcond⟩
    obtain ⟨m, hm, rfl⟩ := List.mem_map.mp hc
    exact ⟨m, hm, rfl, by rw [hsync m hm]; exact hcond⟩
  · rintro ⟨m, hm, rfl, hliked⟩
    refine ⟨m.card, List.mem_map_of_mem _ hm, rfl, ?_⟩
    rw [← hsync m hm]
    exact hliked

end App

/-! ### The per-card refinement: Card seeding versus Gallery resynchronization -/

/-- Core refinement lemma: on a well-formed store, the boolean the Card
`useState` initializer computes via `JSON.parse` of the persisted flag
(falling back to the default seed) is exactly the boolean the Gallery
resynchronization effect computes via its string comparison for the same
card. -/
theorem initLiked_eq_galleryLikedCond {st : Storage} (hwf : WFStorage st)
    (c : CardRec) (hid : c.id ≠ "") :
    Card.initLiked st (some c.id) c.initialLiked = App.galleryLikedCond st c := by
  unfold Card.initLiked App.galleryLikedCond
  simp only [hid, if_neg, if_false]
  cases hv : st.getItem (likedKey c.id) with
  | none => simp
  | some v =>
    rcases hwf c.id v hv with rfl | rfl
    · simp [jsonParseLit, jsTruthy]
    · simp [jsonParseLit, jsTruthy]

/-! ### Lemmas about the per-card resynchronization condition under writes -/

theorem galleryLikedCond_congr {st st2 : Storage} {c : CardRec}
    (h : st2.getItem (likedKey c.id) = st.getItem (likedKey c.id)) :
    App.galleryLikedCond st2 c = App.galleryLikedCond st c := by
  simp only [App.galleryLikedCond, h]

theorem galleryLikedCond_setItem_self (st : Storage) (c : CardRec) (b : Bool) :
    App.galleryLikedCond (st.setItem (likedKey c.id) (jsonStringifyBool b)) c = b := by
  cases b <;>
    simp [App.galleryLikedCond, getItem_setItem_self, jsonStringifyBool]

/-! ### Lemmas about the in-place update the toggle event performs -/

theorem toggle_card_eq (m : CardInstance) (id : String) (b : Bool) :
    (if m.card.id == id then { m with isLiked := b } else m).card = m.card := by
  split <;> rfl

theorem toggle_cards_map_id (cards : List CardInstance) (id : String) (b : Bool) :
    ((cards.map (fun m => if m.card.id == id then { m with isLiked := b } else m)).map
      (fun m => m.card.id)) = cards.map (fun m => m.card.id) := by
  induction cards with
  | nil => rfl
  | cons m ms ih =>
    simp only [List.map_cons, ih]
    congr 1
    exact congrArg CardRec.id (toggle_card_eq m id b)

theorem exists_toggle_iff {cards : List CardInstance} {c : CardInstance}
    (hc : c ∈ cards) (b : Bool) (y : String) :
    (∃ m' ∈ cards.map
        (fun m => if m.card.id == c.card.id then { m with isLiked := b } else m),
        m'.card.id = y ∧ m'.isLiked = true) ↔
      (if y = c.card.id then b = true
       else ∃ m ∈ cards, m.card.id = y ∧ m.isLiked = true) := by
  constructor
  · rintro ⟨m', hm', hy, hl⟩
    obtain ⟨m, hm, rfl⟩ := List.mem_map.mp hm'
    by_cases hmid : m.card.id = c.card.id
    · have hif : (m.card.id == c.card.id) = true := by simp [hmid]
      rw [if_pos hif] at hy hl
      simp only at hy hl
      rw [if_pos (by rw [← hy, hmid])]
      exact hl
    · have hif : (m.card.id == c.card.id) = false := by simp [hmid]
      rw [if_neg (by simp [hif])] at hy hl
      rw [if_neg (by rw [← hy]; exact hmid)]
      exact ⟨m, hm, hy, hl⟩
  · intro hr
    by_cases hy : y = c.card.id
    · rw [if_pos hy] at hr
      subst hy
      refine ⟨{ c with isLiked := b }, ?_, rfl, hr⟩
      have := List.mem_map_of_mem
        (fun m => if m.card.id == c.card.id then { m with isLiked := b } else m) hc
      simpa using this
    · rw [if_neg hy] at hr
      obtain ⟨m, hm, hid, hl⟩ := hr
      refine ⟨m, ?_, hid, hl⟩
      have hif : (m.card.id == c.card.id) = false := by
        simp only [beq_eq_false_iff_ne, ne_eq]
        rw [hid]
        exact hy
      have := List.mem_map_of_mem
        (fun m => if m.card.id == c.card.id then { m with isLiked := b } else m) hm
      simpa [hif] using this

/-! ### The reachability invariant -/

/-- Invariant holding in every state reachable from the initial load of a
well-formed store: the store stays well formed; card identifiers are
distinct, non-empty, and any generated identifier stems from a past clock
reading; each mounted Card agrees with what the resynchronization effect
would compute for it; and the aggregate liked-set is exactly the set of
identifiers of mounted cards whose in-memory state is liked. -/
structure ReachInv (s : App.AppState) : Prop where
  wf : WFStorage s.storage
  idsNodup : (s.cards.map (fun m => m.card.id)).Nodup
  idsNe : ∀ m ∈ s.cards, m.card.id ≠ ""
  idsClock : ∀ m ∈ s.cards, ∀ n, m.card.id = genId n → n < s.clock
  sync : ∀ m ∈ s.cards, m.isLiked = App.galleryLikedCond s.storage m.card
  likedNodup : s.likedCards.Nodup
  likedMem : ∀ y, y ∈ s.likedCards ↔ ∃ m ∈ s.cards, m.card.id = y ∧ m.isLiked = true

theorem initState_cards_map_id (st : Storage) (clk : Nat) :
    ((App.initState st clk).cards.map (fun m => m.card.id)) =
      ["react-dev", "js-fundamentals", "css-animations", "web-design"] := rfl

theorem inv_initState {st : Storage} (hwf : WFStorage st) (clk : Nat) :
    ReachInv (App.initState st clk) := by
  have hids := initState_cards_map_id st clk
  have hmem_id : ∀ m ∈ (App.initState st clk).cards,
      m.card.id = "react-dev" ∨ m.card.id = "js-fundamentals" ∨
        m.card.id = "css-animations" ∨ m.card.id = "web-design" := by
    intro m hm
    have h1 : m.card.id ∈ ["react-dev", "js-fundamentals", "css-animations", "web-design"] := by
      rw [← hids]
      exact List.mem_map_of_mem _ hm
    simpa using h1
  have hsync : ∀ m ∈ (App.initState st clk).cards,
      m.isLiked = App.galleryLikedCond st m.card := by
    intro m hm
    simp only [App.initState, List.mem_map] at hm
    obtain ⟨r, hr, rfl⟩ := hm
    simp only
    apply initLiked_eq_galleryLikedCond hwf
    simp only [initialCards, List.mem_cons, List.not_mem_nil, or_false] at hr
    rcases hr with rfl | rfl | rfl | rfl <;> decide
  refine ⟨hwf, ?_, ?_, ?_, hsync, ?_, ?_⟩
  · rw [hids]; decide
  · intro m hm
    rcases hmem_id m hm with h | h | h | h <;> rw [h] <;> decide
  · intro m hm n he
    rcases hmem_id m hm with h | h | h | h <;> rw [h] at he
    · exact absurd he (seed_ne_genId n).1
    · exact absurd he (seed_ne_genId n).2.1
    · exact absurd he (seed_ne_genId n).2.2.1
    · exact absurd he (seed_ne_genId n).2.2.2
  · exact App.nodup_resyncLiked st _
  · intro y
    exact App.mem_resyncLiked_of_sync hsync y

/-- Transport of the invariant along a state change that keeps the card
list, the liked-set and the store, and does not decrease the clock. -/
theorem reachInv_fieldsKeep {s s2 : App.AppState} (h : ReachInv s)
    (hc : s2.cards = s.cards) (hl : s2.likedCards = s.likedCards)
    (hst : s2.storage = s.storage) (hclk : s.clock ≤ s2.clock) : ReachInv s2 := by
  refine ⟨?_, ?_, ?_, ?_, ?_, ?_, ?_⟩
  · rw [hst]; exact h.wf
  · rw [hc]; exact h.idsNodup
  · rw [hc]; exact h.idsNe
  · rw [hc]
    intro m hm n he
    exact lt_of_lt_of_le (h.idsClock m hm n he) hclk
  · rw [hc, hst]; exact h.sync
  · rw [hl]; exact h.likedNodup
  · intro y
    rw [hl, hc]
    exact h.likedMem y

set_option maxRecDepth 4000 in
/-- The reachability invariant is preserved by every user event. -/
theorem reachInv_step {s : App.AppState} (h : ReachInv s) (op : App.Op) :
    ReachInv (App.step s op) := by
  cases op with
  | toggle id =>
    simp only [App.step]
    cases hfind : s.cards.find? (fun m => m.card.id == id) with
    | none => exact reachInv_fieldsKeep h rfl rfl rfl (Nat.le_succ _)
    | some c =>
      have hc_mem : c ∈ s.cards := List.mem_of_find?_eq_some hfind
      have hc_id : c.card.id = id := by simpa using List.find?_some hfind
      subst hc_id
      have hid_ne : c.card.id ≠ "" := h.idsNe c hc_mem
      simp only [Card.toggleLike, hid_ne, reduceIte, ite_false, ite_true]
      refine ⟨?_, ?_, ?_, ?_, ?_, ?_, ?_⟩
      · exact wf_setItem_stringify h.wf _ _
      · rw [toggle_cards_map_id]; exact h.idsNodup
      · intro m' hm'
        obtain ⟨m, hm, rfl⟩ := List.mem_map.mp hm'
        rw [toggle_card_eq]
        exact h.idsNe m hm
      · intro m' hm' n he
        obtain ⟨m, hm, rfl⟩ := List.mem_map.mp hm'
        rw [toggle_card_eq] at he
        exact Nat.lt_succ_of_lt (h.idsClock m hm n he)
      · intro m' hm'
        obtain ⟨m, hm, rfl⟩ := List.mem_map.mp hm'
        by_cases hmid : m.card.id = c.card.id
        · have hm_eq : m = c := List.inj_on_of_nodup_map h.idsNodup hm hc_mem hmid
          subst hm_eq
          rw [if_pos (by simp)]
          exact (galleryLikedCond_setItem_self s.storage m.card (!m.isLiked)).symm
        · rw [if_neg (by simp [hmid])]
          rw [galleryLikedCond_congr
            (getItem_setItem_ne s.storage _ (fun hk => hmid (likedKey_inj hk)))]
          exact h.sync m hm
      · cases hb : c.isLiked
        · simp only [App.handleLikeChange, Bool.not_false, reduceIte, ite_true]
          exact App.nodup_setAdd _ h.likedNodup
        · simp only [App.handleLikeChange, Bool.not_true, reduceIte, ite_false]
          exact App.nodup_setDelete _ h.likedNodup
      · intro y
        rw [exists_toggle_iff hc_mem]
        cases hb : c.isLiked
        · simp only [App.handleLikeChange, Bool.not_false, reduceIte, ite_true]
          rw [App.mem_setAdd]
          by_cases hy : y = c.card.id
          · simp [hy]
          · simp [hy, h.likedMem y]
        · simp only [App.handleLikeChange, Bool.not_true]
          rw [if_neg (show ¬ (false = true) by decide)]
          rw [App.mem_setDelete h.likedNodup]
          by_cases hy : y = c.card.id
          · simp [hy]
          · simp [hy, h.likedMem y]
  | deleteCard id confirmed =>
    simp only [App.step]
    cases hfind : s.cards.find? (fun m => m.card.id == id) with
    | none => exact reachInv_fieldsKeep h rfl rfl rfl (Nat.le_succ _)
    | some c =>
      have hc_mem : c ∈ s.cards := List.mem_of_find?_eq_some hfind
      have hc_id : c.card.id = id := by simpa using List.find?_some hfind
      subst hc_id
      have hid_ne : c.card.id ≠ "" := h.idsNe c hc_mem
      cases confirmed with
      | false =>
        exact reachInv_fieldsKeep h rfl rfl rfl (Nat.le_succ _)
      | true =>
        have hred : Card.handleDelete s.storage (some c.card.id) true true =
            { storage := s.storage.removeItem (likedKey c.card.id),
              deleteCall := some (some c.card.id) } := by
          simp [Card.handleDelete, hid_ne]
        show ReachInv
          { cards := s.cards.filter (fun m => m.card.id != c.card.id)
            likedCards := App.resyncLiked
              (Card.handleDelete s.storage (some c.card.id) true true).storage
              ((s.cards.filter (fun m => m.card.id != c.card.id)).map CardInstance.card)
            newCardTitle := s.newCardTitle
            isAddingCard := s.isAddingCard
            storage := (Card.handleDelete s.storage (some c.card.id) true true).storage
            clock := s.clock + 1 }
        rw [hred]
        have hsync2 : ∀ m ∈ s.cards.filter (fun m => m.card.id != c.card.id),
            m.isLiked =
              App.galleryLikedCond (s.storage.removeItem (likedKey c.card.id)) m.card := by
          intro m hm
          obtain ⟨hm', hcond⟩ := List.mem_filter.mp hm
          have hne : m.card.id ≠ c.card.id := by simpa using hcond
          rw [galleryLikedCond_congr
            (getItem_removeItem_ne s.storage (fun hk => hne (likedKey_inj hk)))]
          exact h.sync m hm'
        refine ⟨?_, ?_, ?_, ?_, hsync2, ?_, ?_⟩
        · exact wf_removeItem h.wf _
        · exact h.idsNodup.sublist ((List.filter_sublist s.cards).map _)
        · intro m hm
          exact h.idsNe m (List.mem_of_mem_filter hm)
        · intro m hm n he
          exact Nat.lt_succ_of_lt (h.idsClock m (List.mem_of_mem_filter hm) n he)
        · exact App.nodup_resyncLiked _ _
        · exact fun y => App.mem_resyncLiked_of_sync hsync2 y
  | typeTitle t =>
    simp only [App.step]
    exact reachInv_fieldsKeep h rfl rfl rfl (Nat.le_succ _)
  | openAddForm =>
    simp only [App.step]
    exact reachInv_fieldsKeep h rfl rfl rfl (Nat.le_succ _)
  | cancelAdd =>
    simp only [App.step]
    exact reachInv_fieldsKeep h rfl rfl rfl (Nat.le_succ _)
  | submitAdd =>
    simp only [App.step]
    by_cases ht : jsTrim s.newCardTitle = ""
    · rw [if_neg (not_not_intro ht)]
      exact reachInv_fieldsKeep h rfl rfl rfl (Nat.le_succ _)
    · rw [if_pos ht]
      have hfresh : ∀ m ∈ s.cards, m.card.id ≠ genId s.clock := by
        intro m hm he
        exact absurd (h.idsClock m hm s.clock he) (lt_irrefl _)
      have hsync2 : ∀ m ∈ s.cards ++
          [{ card := { id := genId s.clock, title := jsTrim s.newCardTitle,
                       initialLiked := false },
             isLiked := Card.initLiked s.storage (some (genId s.clock)) false }],
          m.isLiked = App.galleryLikedCond s.storage m.card := by
        intro m hm
        rcases List.mem_append.mp hm with hm' | hm'
        · exact h.sync m hm'
        · rw [List.mem_singleton] at hm'
          subst hm'
          exact initLiked_eq_galleryLikedCond h.wf
            { id := genId s.clock, title := jsTrim s.newCardTitle, initialLiked := false }
            (genId_ne_empty _)
      refine ⟨h.wf, ?_, ?_, ?_, hsync2, ?_, ?_⟩
      · rw [List.map_append]
        rw [List.nodup_append]
        refine ⟨h.idsNodup, by simp, ?_⟩
        intro a ha hb
        simp only [List.map_cons, List.map_nil, List.mem_singleton] at hb
        subst hb
        obtain ⟨m, hm, hma⟩ := List.mem_map.mp ha
        exact hfresh m hm hma
      · intro m hm
        rcases List.mem_append.mp hm with hm' | hm'
        · exact h.idsNe m hm'
        · rw [List.mem_singleton] at hm'
          subst hm'
          exact genId_ne_empty _
      · intro m hm n he
        show n < s.clock + 1
        rcases List.mem_append.mp hm with hm' | hm'
        · exact Nat.lt_succ_of_lt (h.idsClock m hm' n he)
        · rw [List.mem_singleton] at hm'
          subst hm'
          have h2 : genId s.clock = genId n := he
          have h3 := genId_inj h2
          omega
      · exact App.nodup_resyncLiked _ _
      · exact fun y => App.mem_resyncLiked_of_sync hsync2 y

theorem reachInv_foldl {s : App.AppState} (h : ReachInv s) :
    ∀ ops : List App.Op, ReachInv (ops.foldl App.step s) := by
  intro ops
  induction ops generalizing s with
  | nil => exact h
  | cons op ops ih => exact ih (reachInv_step h op)

/-- Every state reachable from the initial load of a well-formed store
satisfies the invariant. -/
theorem reachInv_run {st : Storage} (hwf : WFStorage st) (clk : Nat)
    (ops : List App.Op) : ReachInv (App.run st clk ops) :=
  reachInv_foldl (inv_initState hwf clk) ops

/-! ### Claim theorems -/

/-- C1: for every sequence of toggle, add, and delete operations starting
from the initial load (of a store whose persisted flags are well formed),
the liked-count statistic of the Gallery — the size of the aggregate
liked-set — equals the number of currently listed cards whose rendered
status label is `Liked`. -/
theorem likeCount_eq_rendered_liked (st : Storage) (clk : Nat) (ops : List App.Op)
    (hwf : WFStorage st) :
    App.likeCount (App.run st clk ops) =
      ((App.run st clk ops).cards.filter
        (fun m => Card.statusLabel m.isLiked == "Liked")).length := by
  have hinv := reachInv_run hwf clk ops
  set s := App.run st clk ops with hs
  have hpred : ∀ m : CardInstance,
      (Card.statusLabel m.isLiked == "Liked") = m.isLiked := by
    intro m
    cases m.isLiked <;> rfl
  simp only [hpred]
  have hnodup2 : ((s.cards.filter (fun m => m.isLiked)).map
      (fun m => m.card.id)).Nodup :=
    hinv.idsNodup.sublist ((List.filter_sublist _).map _)
  have hmem : ∀ a, a ∈ s.likedCards ↔
      a ∈ (s.cards.filter (fun m => m.isLiked)).map (fun m => m.card.id) := by
    intro a
    rw [hinv.likedMem a]
    simp only [List.mem_map, List.mem_filter]
    constructor
    · rintro ⟨m, hm, rfl, hl⟩
      exact ⟨m, ⟨hm, hl⟩, rfl⟩
    · rintro ⟨m, ⟨hm, hl⟩, rfl⟩
      exact ⟨m, hm, rfl, hl⟩
  have hperm := (List.perm_ext_iff_of_nodup hinv.likedNodup hnodup2).mpr hmem
  rw [App.likeCount, hperm.length_eq, List.length_map]

/-- Witness for C1 at a concrete run: empty store, one toggle, one add and
one confirmed delete. -/
theorem likeCount_eq_rendered_liked_witness :
    WFStorage emptyStorage ∧
      App.likeCount (App.run emptyStorage 0
        [App.Op.toggle "react-dev", App.Op.openAddForm, App.Op.typeTitle "Algorithms",
         App.Op.submitAdd, App.Op.deleteCard "css-animations" true]) =
      ((App.run emptyStorage 0
        [App.Op.toggle "react-dev", App.Op.openAddForm, App.Op.typeTitle "Algorithms",
         App.Op.submitAdd, App.Op.deleteCard "css-animations" true]).cards.filter
        (fun m => Card.statusLabel m.isLiked == "Liked")).length :=
  ⟨wf_emptyStorage, likeCount_eq_rendered_liked emptyStorage 0 _ wf_emptyStorage⟩

/-- C2: at initial load, when a persisted flag whose content parses to a
boolean exists under the card key, the seeded rendered state equals that
boolean regardless of the default seed flag; when no flag exists, it equals
the supplied default seed flag. -/
theorem cardInit_respects_persisted_flag (st : Storage) (id v : String) (d b : Bool)
    (hid : id ≠ "") :
    (st.getItem (likedKey id) = some v → jsonParseLit v = JsonValue.jbool b →
      Card.initLiked st (some id) d = b) ∧
    (st.getItem (likedKey id) = none → Card.initLiked st (some id) d = d) := by
  constructor
  · intro hv hp
    simp [Card.initLiked, hid, hv, hp, jsTruthy]
  · intro hv
    simp [Card.initLiked, hid, hv]

/-- Witness for C2: a persisted `"false"` flag overrides a true default
seed, and with an empty store the default seed is used. -/
theorem cardInit_respects_persisted_flag_witness :
    ("react-dev" : String) ≠ "" ∧
    Card.initLiked (emptyStorage.setItem (likedKey "react-dev") "false")
      (some "react-dev") true = false ∧
    Card.initLiked emptyStorage (some "react-dev") true = true :=
  ⟨by decide,
    (cardInit_respects_persisted_flag (emptyStorage.setItem (likedKey "react-dev") "false")
      "react-dev" "false" true false (by decide)).1 (by decide) (by decide),
    (cardInit_respects_persisted_flag emptyStorage "react-dev" "" true false
      (by decide)).2 rfl⟩

/-- C3 counterexample: toggling twice does not restore the persisted flag
to its prior value when no flag existed before — starting from the empty
store on the seed card `react-dev`, after a double toggle the store holds a
flag (value `"true"`) where it previously held none, while the in-memory
state does return to its original value. -/
theorem doubleToggle_not_store_identity :
    (Card.toggleLike
        (Card.toggleLike emptyStorage (some "react-dev") true true).storage
        (some "react-dev") true
        (Card.toggleLike emptyStorage (some "react-dev") true true).isLiked).storage.getItem
        (likedKey "react-dev") ≠
      emptyStorage.getItem (likedKey "react-dev") ∧
    emptyStorage.getItem (likedKey "react-dev") = none ∧
    (Card.toggleLike
        (Card.toggleLike emptyStorage (some "react-dev") true true).storage
        (some "react-dev") true
        (Card.toggleLike emptyStorage (some "react-dev") true true).isLiked).storage.getItem
        (likedKey "react-dev") = some "true" ∧
    (Card.toggleLike
        (Card.toggleLike emptyStorage (some "react-dev") true true).storage
        (some "react-dev") true
        (Card.toggleLike emptyStorage (some "react-dev") true true).isLiked).isLiked = true := by
  refine ⟨?_, ?_, ?_, ?_⟩ <;> decide

/-- C3 (amended): double toggle restores the in-memory like state, leaves
every other key of the store untouched, and leaves the persisted flag equal
to the serialization of the original in-memory state; in particular
whenever the flag already held that serialization beforehand (as it does
whenever it was last written by this card), the whole store is restored
exactly. -/
theorem doubleToggle_restores_state (st : Storage) (id : String) (hasCb prev : Bool)
    (hid : id ≠ "") :
    ((Card.toggleLike (Card.toggleLike st (some id) hasCb prev).storage (some id) hasCb
        (Card.toggleLike st (some id) hasCb prev).isLiked).isLiked = prev) ∧
    ((Card.toggleLike (Card.toggleLike st (some id) hasCb prev).storage (some id) hasCb
        (Card.toggleLike st (some id) hasCb prev).isLiked).storage.getItem (likedKey id) =
      some (jsonStringifyBool prev)) ∧
    (∀ k, k ≠ likedKey id →
      (Card.toggleLike (Card.toggleLike st (some id) hasCb prev).storage (some id) hasCb
        (Card.toggleLike st (some id) hasCb prev).isLiked).storage.getItem k =
        st.getItem k) ∧
    (st.getItem (likedKey id) = some (jsonStringifyBool prev) →
      ∀ k, (Card.toggleLike (Card.toggleLike st (some id) hasCb prev).storage (some id) hasCb
        (Card.toggleLike st (some id) hasCb prev).isLiked).storage.getItem k =
        st.getItem k) := by
  refine ⟨?_, ?_, ?_, ?_⟩
  · simp [Card.toggleLike]
  · simp [Card.toggleLike, hid, getItem_setItem_self]
  · intro k hk
    simp only [Card.toggleLike, hid, ite_false, if_neg, Bool.not_not]
    rw [getItem_setItem_ne _ _ hk, getItem_setItem_ne _ _ hk]
  · intro hprev k
    by_cases hk : k = likedKey id
    · subst hk
      simp [Card.toggleLike, hid, getItem_setItem_self, hprev]
    · simp only [Card.toggleLike, hid, ite_false, if_neg, Bool.not_not]
      rw [getItem_setItem_ne _ _ hk, getItem_setItem_ne _ _ hk]

/-- Witness for C3 (amended): with the flag `"true"` already persisted and
the in-memory state liked, the double toggle restores the flag exactly. -/
theorem doubleToggle_restores_state_witness :
    ("react-dev" : String) ≠ "" ∧
    (emptyStorage.setItem (likedKey "react-dev") "true").getItem (likedKey "react-dev") =
      some (jsonStringifyBool true) ∧
    (Card.toggleLike
        (Card.toggleLike (emptyStorage.setItem (likedKey "react-dev") "true")
          (some "react-dev") true true).storage
        (some "react-dev") true
        (Card.toggleLike (emptyStorage.setItem (likedKey "react-dev") "true")
          (some "react-dev") true true).isLiked).storage.getItem (likedKey "react-dev") =
      (emptyStorage.setItem (likedKey "react-dev") "true").getItem (likedKey "react-dev") :=
  ⟨by decide, by decide,
    (doubleToggle_restores_state (emptyStorage.setItem (likedKey "react-dev") "true")
      "react-dev" true true (by decide)).2.2.2 (by decide) (likedKey "react-dev")⟩

/-- C6: submitting the add form while the trimmed pending title is empty
creates no card: the card list, the total count, the aggregate liked-set
and the store are all unchanged (and no error is modelled or raised). -/
theorem addCard_empty_title_noop (s : App.AppState)
    (h : jsTrim s.newCardTitle = "") :
    (App.step s App.Op.submitAdd).cards = s.cards ∧
    App.totalCards (App.step s App.Op.submitAdd) = App.totalCards s ∧
    (App.step s App.Op.submitAdd).likedCards = s.likedCards ∧
    (App.step s App.Op.submitAdd).storage = s.storage := by
  simp only [App.step]
  rw [if_neg (not_not_intro h)]
  exact ⟨rfl, rfl, rfl, rfl⟩

set_option maxRecDepth 10000 in
/-- Witness for C6 at a whitespace-only pending title. -/
theorem addCard_empty_title_noop_witness :
    jsTrim (App.run emptyStorage 0
      [App.Op.openAddForm, App.Op.typeTitle "   "]).newCardTitle = "" ∧
    (App.step (App.run emptyStorage 0 [App.Op.openAddForm, App.Op.typeTitle "   "])
        App.Op.submitAdd).cards =
      (App.run emptyStorage 0 [App.Op.openAddForm, App.Op.typeTitle "   "]).cards :=
  ⟨by decide,
    (addCard_empty_title_noop
      (App.run emptyStorage 0 [App.Op.openAddForm, App.Op.typeTitle "   "])
      (by decide)).1⟩

/-- C7: an unconfirmed delete has no effect — the store and the parent card
list and liked-set are unchanged and the delete callback is not invoked;
with confirmation the persisted entry is removed and the callback invoked
exactly when supplied. -/
theorem delete_unconfirmed_noop (st : Storage) (cardId : Option String)
    (hasDel : Bool) (s : App.AppState) (id : String) :
    (Card.handleDelete st cardId hasDel false).storage = st ∧
    (Card.handleDelete st cardId hasDel false).deleteCall = none ∧
    (Card.handleDelete st cardId hasDel true).deleteCall =
      (if hasDel then some cardId else none) ∧
    (∀ i, cardId = some i → i ≠ "" →
      (Card.handleDelete st cardId hasDel true).storage.getItem (likedKey i) = none) ∧
    (App.step s (App.Op.deleteCard id false)).cards = s.cards ∧
    (App.step s (App.Op.deleteCard id false)).likedCards = s.likedCards ∧
    (App.step s (App.Op.deleteCard id false)).storage = s.storage := by
  refine ⟨rfl, rfl, rfl, ?_, ?_, ?_, ?_⟩
  · intro i hi hne
    subst hi
    simp [Card.handleDelete, hne, getItem_removeItem_self]
  · simp only [App.step]
    cases s.cards.find? (fun m => m.card.id == id) <;> rfl
  · simp only [App.step]
    cases s.cards.find? (fun m => m.card.id == id) <;> rfl
  · simp only [App.step]
    cases s.cards.find? (fun m => m.card.id == id) <;> rfl

/-- Witness for C7: unconfirmed delete of the seed card leaves the run
state unchanged, confirmed delete removes a present flag. -/
theorem delete_unconfirmed_noop_witness :
    (Card.handleDelete emptyStorage (some "react-dev") true false).storage =
      emptyStorage ∧
    (Card.handleDelete (emptyStorage.setItem (likedKey "react-dev") "true")
        (some "react-dev") true true).storage.getItem (likedKey "react-dev") = none ∧
    (App.step (App.run emptyStorage 0 []) (App.Op.deleteCard "react-dev" false)).cards =
      (App.run emptyStorage 0 []).cards :=
  ⟨(delete_unconfirmed_noop emptyStorage (some "react-dev") true
      (App.run emptyStorage 0 []) "react-dev").1,
    (delete_unconfirmed_noop (emptyStorage.setItem (likedKey "react-dev") "true")
      (some "react-dev") true (App.run emptyStorage 0 []) "react-dev").2.2.2.1
      "react-dev" rfl (by decide),
    (delete_unconfirmed_noop emptyStorage (some "react-dev") true
      (App.run emptyStorage 0 []) "react-dev").2.2.2.2.1⟩

/-- C10: with a null cardId the Card never touches the store — the seed
comes from the default prop alone for every store, toggling flips the
in-memory state, leaves the store unchanged and still invokes the
like-change callback with the null id and the new value when supplied, and
a confirmed delete removes nothing from the store while still invoking the
delete callback when supplied. -/
theorem null_cardId_frame (st : Storage) (d prev hasLike hasDel : Bool) :
    Card.initLiked st none d = d ∧
    (Card.toggleLike st none hasLike prev).isLiked = (!prev) ∧
    (Card.toggleLike st none hasLike prev).storage = st ∧
    (Card.toggleLike st none hasLike prev).likeChangeCall =
      (if hasLike then some (none, !prev) else none) ∧
    (Card.handleDelete st none hasDel true).storage = st ∧
    (Card.handleDelete st none hasDel true).deleteCall =
      (if hasDel then some none else none) ∧
    (Card.handleDelete st none hasDel false).storage = st ∧
    (Card.handleDelete st none hasDel false).deleteCall = none :=
  ⟨rfl, rfl, rfl, rfl, rfl, rfl, rfl, rfl⟩

/-- C8 counterexample: in the error state the fallback panel replaces the
entire content under the boundary, not only the card-list region — the
statistics header, present in the normal render, is gone from the error
render, so the error render is not the normal render with just the
card-list region substituted. -/
theorem errorFallback_replaces_more_than_cards_region :
    Region.stats ∈ appContent (App.run emptyStorage 0 []) ∧
    Region.cardsGrid ∈ appContent (App.run emptyStorage 0 []) ∧
    appRender (EB.getDerivedStateFromError "boom") (App.run emptyStorage 0 []) ≠
      (appContent (App.run emptyStorage 0 [])).map
        (fun r => if r = Region.cardsGrid then Region.errorFallback else r) ∧
    Region.stats ∉ appRender (EB.getDerivedStateFromError "boom")
      (App.run emptyStorage 0 []) := by
  refine ⟨?_, ?_, ?_, ?_⟩ <;> decide

/-- C8 (amended): a rendering failure below the boundary (which wraps the
whole Gallery content, the card-list region included) flips the boundary
into the error state, whose render is exactly the static fallback panel;
the reset action re-enables the normal render of the current application
state, restoring no other state. -/
theorem errorBoundary_catches_and_resets (e : String) (eb : EBState)
    (s : App.AppState) :
    appRender (EB.getDerivedStateFromError e) s = [Region.errorFallback] ∧
    appRender (EB.reset eb) s = appContent s ∧
    (eb.hasError = false → appRender eb s = appContent s) := by
  refine ⟨rfl, rfl, fun h => ?_⟩
  simp [appRender, EB.render, h]

/-- Witness for C8 (amended) at a concrete boundary state. -/
theorem errorBoundary_catches_and_resets_witness :
    (EBState.mk false none).hasError = false ∧
    appRender (EBState.mk false none) (App.initState emptyStorage 0) =
      appContent (App.initState emptyStorage 0) :=
  ⟨rfl, (errorBoundary_catches_and_resets "boom" (EBState.mk false none)
    (App.initState emptyStorage 0)).2.2 rfl⟩

/-- C9: on a store whose entries under card keys are absent or the exact
strings written by the Card, the boolean the Card seeds via JSON parsing
equals the boolean of the Gallery resynchronization condition, and
membership of the card in the resynchronized liked-set coincides with the
Card having seeded as liked. -/
theorem gallery_resync_matches_card_seed (st : Storage) (hwf : WFStorage st)
    (c : CardRec) (hid : c.id ≠ "") (cards : List CardRec)
    (hnodup : (cards.map CardRec.id).Nodup) (hc : c ∈ cards) :
    Card.initLiked st (some c.id) c.initialLiked = App.galleryLikedCond st c ∧
    (c.id ∈ App.resyncLiked st cards ↔
      Card.initLiked st (some c.id) c.initialLiked = true) := by
  refine ⟨initLiked_eq_galleryLikedCond hwf c hid, ?_⟩
  rw [App.mem_resyncLiked, initLiked_eq_galleryLikedCond hwf c hid]
  constructor
  · rintro ⟨d, hd, hdc, hcond⟩
    have hdceq : d = c := List.inj_on_of_nodup_map hnodup hd hc hdc
    rw [← hdceq]
    exact hcond
  · intro hcond
    exact ⟨c, hc, rfl, hcond⟩

/-- Witness for C9: a persisted `"false"` flag on a default-liked seed card
of the seed list. -/
theorem gallery_resync_matches_card_seed_witness :
    WFStorage (emptyStorage.setItem (likedKey "react-dev") (jsonStringifyBool false)) ∧
    (CardRec.mk "react-dev" "React Development" true).id ≠ "" ∧
    ((initialCards.map CardRec.id).Nodup ∧
      CardRec.mk "react-dev" "React Development" true ∈ initialCards) ∧
    ("react-dev" ∈ App.resyncLiked
        (emptyStorage.setItem (likedKey "react-dev") (jsonStringifyBool false))
        initialCards ↔
      Card.initLiked
        (emptyStorage.setItem (likedKey "react-dev") (jsonStringifyBool false))
        (some "react-dev") true = true) :=
  ⟨wf_setItem_stringify wf_emptyStorage _ false, by decide, ⟨by decide, by decide⟩,
    (gallery_resync_matches_card_seed _
      (wf_setItem_stringify wf_emptyStorage _ false)
      (CardRec.mk "react-dev" "React Development" true) (by decide)
      initialCards (by decide) (by decide)).2⟩

/-- Filtering out the one card carrying a present identifier removes
exactly one element when identifiers are distinct. -/
theorem length_filter_ne_of_nodup {l : List CardInstance}
    (hnodup : (l.map (fun m => m.card.id)).Nodup) {id : String}
    (hmem : id ∈ l.map (fun m => m.card.id)) :
    (l.filter (fun m => m.card.id != id)).length + 1 = l.length := by
  induction l with
  | nil => simp at hmem
  | cons m ms ih =>
    simp only [List.map_cons, List.nodup_cons, List.mem_cons] at hnodup hmem
    obtain ⟨hnotin, hnodup2⟩ := hnodup
    by_cases hm : m.card.id = id
    · subst hm
      have hcond : (m.card.id != m.card.id) = false := by simp
      rw [List.filter_cons, hcond]
      simp only [Bool.false_eq_true, if_neg, ite_false, List.length_cons]
      have hrest : ms.filter (fun x => x.card.id != m.card.id) = ms := by
        rw [List.filter_eq_self]
        intro x hx
        simp only [bne_iff_ne, ne_eq]
        intro heq
        exact hnotin (List.mem_map.mpr ⟨x, hx, heq⟩)
      rw [hrest]
    · rcases hmem with heq | hmem2
      · exact absurd heq.symm hm
      · have hcond : (m.card.id != id) = true := by simp [hm]
        rw [List.filter_cons, hcond]
        simp only [if_pos, ite_true, List.length_cons]
        have h2 := ih hnodup2 hmem2
        omega

/-- C4: whenever the trimmed pending title is non-empty, submitting the add
form grows the list by exactly one, appending at the end a record carrying
a freshly generated identifier absent from the current list, the trimmed
title, and a false default seed flag, and clears the pending input. -/
theorem addCard_appends_and_clears (st : Storage) (clk : Nat) (ops : List App.Op)
    (hwf : WFStorage st)
    (ht : jsTrim (App.run st clk ops).newCardTitle ≠ "") :
    App.totalCards (App.step (App.run st clk ops) App.Op.submitAdd) =
      App.totalCards (App.run st clk ops) + 1 ∧
    (∃ m : CardInstance,
      (App.step (App.run st clk ops) App.Op.submitAdd).cards =
        (App.run st clk ops).cards ++ [m] ∧
      m.card.id = genId (App.run st clk ops).clock ∧
      m.card.id ∉ (App.run st clk ops).cards.map (fun x => x.card.id) ∧
      m.card.title = jsTrim (App.run st clk ops).newCardTitle ∧
      m.card.initialLiked = false) ∧
    (App.step (App.run st clk ops) App.Op.submitAdd).newCardTitle = "" := by
  have hinv := reachInv_run hwf clk ops
  set s := App.run st clk ops with hs
  have hfresh : genId s.clock ∉ s.cards.map (fun x => x.card.id) := by
    intro hmem
    obtain ⟨m, hm, hma⟩ := List.mem_map.mp hmem
    exact absurd (hinv.idsClock m hm s.clock hma) (lt_irrefl _)
  simp only [App.step]
  rw [if_pos ht]
  refine ⟨?_, ?_, rfl⟩
  · simp [App.totalCards]
  · exact ⟨⟨⟨genId s.clock, jsTrim s.newCardTitle, false⟩,
      Card.initLiked s.storage (some (genId s.clock)) false⟩,
      rfl, rfl, hfresh, rfl, rfl⟩

set_option maxRecDepth 10000 in
/-- Witness for C4: adding the card titled `Algorithms` on the initial
load. -/
theorem addCard_appends_and_clears_witness :
    WFStorage emptyStorage ∧
    jsTrim (App.run emptyStorage 0
      [App.Op.openAddForm, App.Op.typeTitle "Algorithms"]).newCardTitle ≠ "" ∧
    App.totalCards (App.step
        (App.run emptyStorage 0 [App.Op.openAddForm, App.Op.typeTitle "Algorithms"])
        App.Op.submitAdd) =
      App.totalCards
        (App.run emptyStorage 0 [App.Op.openAddForm, App.Op.typeTitle "Algorithms"]) + 1 :=
  ⟨wf_emptyStorage, by decide,
    (addCard_appends_and_clears emptyStorage 0
      [App.Op.openAddForm, App.Op.typeTitle "Algorithms"] wf_emptyStorage (by decide)).1⟩

/-- C5: a confirmed delete of a listed identifier removes exactly the one
matching entry from the list, drops the identifier from the aggregate
liked-set, and removes the persisted entry from the store; a confirmed
delete of an identifier not in the list leaves the list unchanged. -/
theorem deleteCard_removes_exactly_one (st : Storage) (clk : Nat)
    (ops : List App.Op) (hwf : WFStorage st) (id : String) :
    (id ∈ (App.run st clk ops).cards.map (fun m => m.card.id) →
      (App.step (App.run st clk ops) (App.Op.deleteCard id true)).cards =
        (App.run st clk ops).cards.filter (fun m => m.card.id != id) ∧
      (App.step (App.run st clk ops) (App.Op.deleteCard id true)).cards.length + 1 =
        (App.run st clk ops).cards.length ∧
      id ∉ (App.step (App.run st clk ops) (App.Op.deleteCard id true)).likedCards ∧
      (App.step (App.run st clk ops) (App.Op.deleteCard id true)).storage.getItem
        (likedKey id) = none) ∧
    (id ∉ (App.run st clk ops).cards.map (fun m => m.card.id) →
      (App.step (App.run st clk ops) (App.Op.deleteCard id true)).cards =
        (App.run st clk ops).cards) := by
  have hinv := reachInv_run hwf clk ops
  set s := App.run st clk ops with hs
  constructor
  · intro hmem
    obtain ⟨m0, hm0, hm0id⟩ := List.mem_map.mp hmem
    have hsome : (s.cards.find? (fun m => m.card.id == id)).isSome := by
      rw [List.find?_isSome]
      exact ⟨m0, hm0, by simp [hm0id]⟩
    obtain ⟨c, hfind⟩ := Option.isSome_iff_exists.mp hsome
    have hc_mem : c ∈ s.cards := List.mem_of_find?_eq_some hfind
    have hc_id : c.card.id = id := by simpa using List.find?_some hfind
    have hid_ne : c.card.id ≠ "" := hinv.idsNe c hc_mem
    subst hc_id
    have hred : Card.handleDelete s.storage (some c.card.id) true true =
        { storage := s.storage.removeItem (likedKey c.card.id),
          deleteCall := some (some c.card.id) } := by
      simp [Card.handleDelete, hid_ne]
    simp only [App.step]
    rw [hfind]
    simp only [hred]
    refine ⟨by trivial, ?_, ?_, ?_⟩
    · exact length_filter_ne_of_nodup hinv.idsNodup hmem
    · intro hcontra
      rw [App.mem_resyncLiked] at hcontra
      obtain ⟨d, hd, hdid, _⟩ := hcontra
      obtain ⟨m2, hm2, rfl⟩ := List.mem_map.mp hd
      have hkeep := (List.mem_filter.mp hm2).2
      rw [hdid] at hkeep
      simp at hkeep
    · exact getItem_removeItem_self _ _
  · intro hnotmem
    have hfind : s.cards.find? (fun m => m.card.id == id) = none := by
      rw [List.find?_eq_none]
      intro m hm
      simp only [beq_eq_false_iff_ne, ne_eq, Bool.not_eq_true, beq_iff_eq]
      intro heq
      exact hnotmem (List.mem_map.mpr ⟨m, hm, heq⟩)
    simp only [App.step]
    rw [hfind]

set_option maxRecDepth 10000 in
/-- Witness for C5: deleting the present seed card `react-dev` and the
absent identifier `nope` on the initial load. -/
theorem deleteCard_removes_exactly_one_witness :
    WFStorage emptyStorage ∧
    "react-dev" ∈ (App.run emptyStorage 0 []).cards.map (fun m => m.card.id) ∧
    (App.step (App.run emptyStorage 0 [])
        (App.Op.deleteCard "react-dev" true)).cards.length + 1 =
      (App.run emptyStorage 0 []).cards.length ∧
    "nope" ∉ (App.run emptyStorage 0 []).cards.map (fun m => m.card.id) ∧
    (App.step (App.run emptyStorage 0 []) (App.Op.deleteCard "nope" true)).cards =
      (App.run emptyStorage 0 []).cards :=
  ⟨wf_emptyStorage, by decide,
    ((deleteCard_removes_exactly_one emptyStorage 0 [] wf_emptyStorage "react-dev").1
      (by decide)).2.1,
    by decide,
    (deleteCard_removes_exactly_one emptyStorage 0 [] wf_emptyStorage "nope").2
      (by decide)⟩
